import Mathlib

/-!
Shallow embedding of the Window-clock repository, covering
monitor_utils.py (display topology resolver) and window_clock.py
(overlay manipulation controller).

Modelling conventions: Python strings are lists of characters, Python
ints are Int, tkinter canvas coordinates are rationals (every coordinate
operation in the source is addition, subtraction, halving by true
division and comparison, all of which are exact on half-integers), and a
Python function that can raise is modelled in the Except monad.
External effects (the tkinter canvas measurements, the OS display
queries, the widget variable values) enter the definitions as explicit
parameters.
-/

namespace WindowClock

/-- Whitespace test used by python str.strip and str.split. -/
def isPySpace (c : Char) : Bool :=
  c = ' ' || c = '\t' || c = '\n' || c = '\r' || c = '\x0b' || c = '\x0c'

/-- python line.strip: drop whitespace at both ends. -/
def pyStrip (s : List Char) : List Char :=
  ((s.dropWhile isPySpace).reverse.dropWhile isPySpace).reverse

/-- Helper for pySplitWs; the current field is accumulated in reverse. -/
def splitWsAux : List Char → List Char → List (List Char)
  | [], acc => if acc = [] then [] else [acc.reverse]
  | c :: cs, acc =>
    if isPySpace c then
      if acc = [] then splitWsAux cs [] else acc.reverse :: splitWsAux cs []
    else splitWsAux cs (c :: acc)

/-- python s.split() with no argument: split on runs of whitespace,
producing no empty fields. -/
def pySplitWs (s : List Char) : List (List Char) := splitWsAux s []

/-- Helper for pySplitLines; the current line is accumulated in reverse. -/
def splitLinesAux : List Char → List Char → List (List Char)
  | [], acc => if acc = [] then [] else [acc.reverse]
  | c :: cs, acc =>
    if c = '\n' then acc.reverse :: splitLinesAux cs []
    else splitLinesAux cs (c :: acc)

/-- python output.splitlines for newline-separated text, which is what
the listing tool emits; no trailing empty line for a final newline. -/
def pySplitLines (s : List Char) : List (List Char) := splitLinesAux s []

/-- python s.split(sep, 1): split at the first occurrence of sep only. -/
def pySplitOn1 (sep : Char) : List Char → List (List Char)
  | [] => [[]]
  | c :: cs =>
    if c = sep then [[], cs]
    else
      match pySplitOn1 sep cs with
      | [] => [[c]]
      | a :: as => (c :: a) :: as

/-- python s.split(sep): split at every occurrence of sep. -/
def pySplitAll (sep : Char) : List Char → List (List Char)
  | [] => [[]]
  | c :: cs =>
    if c = sep then [] :: pySplitAll sep cs
    else
      match pySplitAll sep cs with
      | [] => [[c]]
      | a :: as => (c :: a) :: as

/-- Decimal value of a digit string. -/
def decVal (s : List Char) : Nat :=
  s.foldl (fun a c => 10 * a + (c.toNat - 48)) 0

/-- The digit-run part of python int(): defined on nonempty all-digit
strings, none otherwise. -/
def digitsVal (s : List Char) : Option Nat :=
  if s ≠ [] ∧ s.all Char.isDigit then some (decVal s) else none

/-- python int() on the token shapes the monitor parser feeds it: an
optional single sign followed by a nonempty digit run; any other string
raises ValueError, modelled as none. -/
def pyInt (s : List Char) : Option Int :=
  match s with
  | [] => none
  | c :: rest =>
    if c = '-' then (digitsVal rest).map (fun n => -(n : Int))
    else if c = '+' then (digitsVal rest).map (fun n => (n : Int))
    else (digitsVal (c :: rest)).map (fun n => (n : Int))

/-- Monitor, from monitor_utils.py: one display with pixel size, virtual
desktop origin and a name. -/
structure Monitor where
  width : Int
  height : Int
  x : Int
  y : Int
  name : List Char
deriving DecidableEq, Repr

/-- The Monitor constructor: an empty name falls back to the label
built from x and y, mirroring the python expression
name or f-string of x comma y. -/
def mkMonitor (width height x y : Int) (name : List Char) : Monitor :=
  { width := width, height := height, x := x, y := y,
    name := if name = [] then (toString x ++ "," ++ toString y).toList else name }

/-- python parts[1].startswith with the plus sign. -/
def startsWithPlus : List Char → Bool
  | '+' :: _ => true
  | _ => false

/-- The body of the per-line processing in _monitors_linux, applied to
the whitespace-separated fields of one stripped line.  A line with fewer
than four fields or whose second field does not start with a plus sign
is skipped (ok none).  A line passing that filter has its third field
split as geometry: first split at the first plus sign into size and
position, then size at x characters and position at plus signs, each
unpacking requiring exactly two pieces, then the four int conversions;
any failure there is an uncaught ValueError (error).  The name is the
last field. -/
def parseFields : List (List Char) → Except Unit (Option Monitor)
  | _ :: p1 :: p2 :: p3 :: rest =>
    if startsWithPlus p1 then
      match pySplitOn1 '+' p2 with
      | [size, position] =>
        match pySplitAll 'x' size with
        | [wchars, hchars] =>
          match pySplitAll '+' position with
          | [xchars, ychars] =>
            match pyInt wchars, pyInt hchars, pyInt xchars, pyInt ychars with
            | some w, some h, some x, some y =>
              Except.ok (some (mkMonitor w h x y ((p3 :: rest).getLastD [])))
            | _, _, _, _ => Except.error ()
          | _ => Except.error ()
        | _ => Except.error ()
      | _ => Except.error ()
    else Except.ok none
  | _ => Except.ok none

/-- One iteration of the line loop in _monitors_linux. -/
def parseMonitorLine (line : List Char) : Except Unit (Option Monitor) :=
  parseFields (pySplitWs (pyStrip line))

/-- The line loop of _monitors_linux over the already-split lines;
monitors are collected in line order, and a ValueError raised by any
line aborts the loop. -/
def monitorsLinuxLines : List (List Char) → Except Unit (List Monitor)
  | [] => Except.ok []
  | l :: ls =>
    match parseMonitorLine l with
    | Except.error e => Except.error e
    | Except.ok none => monitorsLinuxLines ls
    | Except.ok (some m) => Except.map (fun ms => m :: ms) (monitorsLinuxLines ls)

/-- _monitors_linux applied to the text output of the listing tool.  The
try block around the tool invocation is modelled by the caller choosing
the output; an invocation failure corresponds to the empty monitor
list. -/
def monitorsLinux (output : List Char) : Except Unit (List Monitor) :=
  monitorsLinuxLines (pySplitLines output)

/-- enumerate_monitors from monitor_utils.py.  The platform-specific
path (windows, darwin or linux) is an OS query; its returned list is the
parameter platformMonitors, and the screen size reported by the root
window is screenW, screenH.  When the platform path returns no monitors,
exactly one default monitor is synthesized. -/
def enumerate_monitors (platformMonitors : List Monitor) (screenW screenH : Int) :
    List Monitor :=
  if platformMonitors.isEmpty then
    [mkMonitor screenW screenH 0 0 ("Default".toList)]
  else platformMonitors

/-- A canvas rectangle (x1, y1, x2, y2), as returned by canvas.bbox and
canvas.coords on rectangle items. -/
structure Rect where
  x1 : Int
  y1 : Int
  x2 : Int
  y2 : Int
deriving DecidableEq, Repr

/-- The coordinates written to the scale handle whenever it is placed:
an 8 by 8 square at the bottom-right corner of a bounding box, from
canvas.coords(scale_handle, bbox2, bbox3, bbox2 + 8, bbox3 + 8). -/
def handleRect (b : Rect) : Rect :=
  { x1 := b.x2, y1 := b.y2, x2 := b.x2 + 8, y2 := b.y2 + 8 }

/-- The mutable fields of WindowClock touched by the manipulation
handlers.  selectionRect and scaleHandle model the canvas item ids
(None or an item whose coordinates are tracked); centerLineV and
centerLineH model existence of the two guide line items; textPos models
the canvas coordinates of the text item; fontSizeVar models the IntVar
bound to the settings spinbox. -/
structure ClockState where
  fontSize : Int
  fontSizeVar : Int
  fontFamily : List Char
  dragging : Bool
  scaling : Bool
  selectionRect : Option Rect
  scaleHandle : Option Rect
  centerLineV : Bool
  centerLineH : Bool
  dragOffsetX : ℚ
  dragOffsetY : ℚ
  scaleStartY : Int
  initialFontSize : Int
  textPos : ℚ × ℚ
deriving DecidableEq, Repr

/-- The else branches of on_text_press: delete the selection rectangle
and the scale handle if present. -/
def deselect (s : ClockState) : ClockState :=
  { s with selectionRect := none, scaleHandle := none }

/-- The part of on_text_press after the scale-handle test: bbox is the
result of canvas.bbox on the text item (None when tkinter reports no
box).  A press inside the box starts dragging, records the pointer
offset from the box center, and places the selection rectangle and the
scale handle at the box; a press outside deselects. -/
def pressText (ex ey : Int) (bbox : Option Rect) (s : ClockState) : ClockState :=
  match bbox with
  | some b =>
    if b.x1 ≤ ex ∧ ex ≤ b.x2 ∧ b.y1 ≤ ey ∧ ey ≤ b.y2 then
      { s with dragging := true,
               dragOffsetX := (ex : ℚ) - ((b.x1 : ℚ) + (b.x2 : ℚ)) / 2,
               dragOffsetY := (ey : ℚ) - ((b.y1 : ℚ) + (b.y2 : ℚ)) / 2,
               selectionRect := some b,
               scaleHandle := some (handleRect b) }
    else deselect s
  | none => deselect s

/-- WindowClock.on_text_press: if the scale handle exists and the press
is inside it, enter scaling and record the vertical baseline and the
font size baseline; otherwise fall through to the text-box test. -/
def on_text_press (ex ey : Int) (bbox : Option Rect) (s : ClockState) : ClockState :=
  match s.scaleHandle with
  | some h =>
    if h.x1 ≤ ex ∧ ex ≤ h.x2 ∧ h.y1 ≤ ey ∧ ey ≤ h.y2 then
      { s with scaling := true, scaleStartY := ey, initialFontSize := s.fontSize }
    else pressText ex ey bbox s
  | none => pressText ex ey bbox s

/-- WindowClock.on_text_drag.  w and h are canvas.winfo_width and
canvas.winfo_height; newBbox is the bounding box tkinter reports for the
text after the update.  In the scaling branch the new size is
max 1 (baseline size + pointer y delta), applied only when it differs
from the current size.  In the dragging branch the new center is the
pointer minus the recorded offset, each axis clamped to the canvas
midpoint when within 10 units of it; a single snapped flag (either axis)
decides whether both guide lines exist afterwards, since the source
creates both when snapped and deletes both otherwise. -/
def on_text_drag (ex ey w h : Int) (newBbox : Rect) (s : ClockState) : ClockState :=
  if s.scaling then
    let newSize := max 1 (s.initialFontSize + (ey - s.scaleStartY))
    if newSize ≠ s.fontSize then
      { s with fontSize := newSize,
               fontSizeVar := newSize,
               selectionRect := if s.selectionRect.isSome then some newBbox else s.selectionRect,
               scaleHandle := if s.scaleHandle.isSome then some (handleRect newBbox) else s.scaleHandle }
    else s
  else if s.dragging then
    let x0 : ℚ := (ex : ℚ) - s.dragOffsetX
    let y0 : ℚ := (ey : ℚ) - s.dragOffsetY
    let cx : ℚ := (w : ℚ) / 2
    let cy : ℚ := (h : ℚ) / 2
    let x := if |x0 - cx| ≤ 10 then cx else x0
    let y := if |y0 - cy| ≤ 10 then cy else y0
    let snapped := decide (|x0 - cx| ≤ 10) || decide (|y0 - cy| ≤ 10)
    { s with textPos := (x, y),
             selectionRect := if s.selectionRect.isSome then some newBbox else s.selectionRect,
             scaleHandle := if s.scaleHandle.isSome then some (handleRect newBbox) else s.scaleHandle,
             centerLineV := snapped,
             centerLineH := snapped }
  else s

/-- WindowClock.on_text_release: end any gesture and delete both guide
lines. -/
def on_text_release (s : ClockState) : ClockState :=
  { s with dragging := false, scaling := false,
           centerLineV := false, centerLineH := false }

/-- WindowClock.on_mousewheel.  delta and num are the event fields (num
is 4 for a scroll-up button event on linux); newBbox is the bounding box
after the font change.  Nothing happens unless the selection rectangle
exists. -/
def on_mousewheel (delta : Int) (num : Option Int) (newBbox : Rect) (s : ClockState) :
    ClockState :=
  if s.selectionRect.isSome then
    let d : Int := if 0 < delta ∨ num = some 4 then 1 else -1
    { s with fontSize := max 1 (s.fontSize + d),
             fontSizeVar := max 1 (s.fontSize + d),
             selectionRect := some newBbox,
             scaleHandle := if s.scaleHandle.isSome then some (handleRect newBbox) else s.scaleHandle }
  else s

/-- python list.index: position of the first occurrence. -/
def pyIndex {α : Type} [DecidableEq α] (a : α) : List α → Nat
  | [] => 0
  | b :: l => if b = a then 0 else pyIndex a l + 1

/-- WindowClock.apply_settings.  fontVar and monitorChoice are the
current values of the font and monitor widgets, monitorNames the list
built from the resolved monitors, selectedIdx the current monitor index;
newBbox is the bounding box of the text after the font change.  The
font size is copied from the spinbox variable with no clamping; the
monitor index is replaced only when the chosen name is present, by the
first occurrence; the selection rectangle and, inside that branch, the
scale handle are repositioned when they exist.  The window geometry
application is an external tkinter effect and is not part of the
state. -/
def apply_settings (fontVar monitorChoice : List Char)
    (monitorNames : List (List Char)) (selectedIdx : Nat) (newBbox : Rect)
    (s : ClockState) : ClockState × Nat :=
  let idx := if monitorChoice ∈ monitorNames then pyIndex monitorChoice monitorNames
             else selectedIdx
  ({ s with fontFamily := fontVar,
            fontSize := s.fontSizeVar,
            selectionRect := if s.selectionRect.isSome then some newBbox else s.selectionRect,
            scaleHandle := if s.selectionRect.isSome ∧ s.scaleHandle.isSome
                           then some (handleRect newBbox) else s.scaleHandle },
   idx)

/-- A nonempty decimal digit string. -/
def IsDigits (s : List Char) : Prop := s ≠ [] ∧ ∀ c ∈ s, c.isDigit = true

instance (s : List Char) : Decidable (IsDigits s) := by
  unfold IsDigits
  infer_instance

/-- The written form of a signed integer: a nonempty digit string,
optionally preceded by a single minus sign. -/
def IsSignedInt (s : List Char) : Prop :=
  IsDigits s ∨ ∃ t, s = '-' :: t ∧ IsDigits t

/-- Value denoted by the written form of a signed integer. -/
def sVal (s : List Char) : Int :=
  match s with
  | [] => 0
  | c :: rest => if c = '-' then -((decVal rest : Nat) : Int) else ((decVal (c :: rest) : Nat) : Int)

theorem isDigit_ne_plus {c : Char} (h : c.isDigit = true) : c ≠ '+' := by
  intro e; subst e; exact absurd h (by decide)

theorem isDigit_ne_x {c : Char} (h : c.isDigit = true) : c ≠ 'x' := by
  intro e; subst e; exact absurd h (by decide)

theorem isDigit_ne_minus {c : Char} (h : c.isDigit = true) : c ≠ '-' := by
  intro e; subst e; exact absurd h (by decide)

theorem digits_plus_not_mem {s : List Char} (h : IsDigits s) : '+' ∉ s :=
  fun m => isDigit_ne_plus (h.2 _ m) rfl

theorem digits_x_not_mem {s : List Char} (h : IsDigits s) : 'x' ∉ s :=
  fun m => isDigit_ne_x (h.2 _ m) rfl

theorem signed_plus_not_mem {s : List Char} (h : IsSignedInt s) : '+' ∉ s := by
  rcases h with h | ⟨t, rfl, ht⟩
  · exact digits_plus_not_mem h
  · intro m
    rcases List.mem_cons.mp m with e | m
    · exact absurd e (by decide)
    · exact digits_plus_not_mem ht m

theorem pySplitOn1_eq {sep : Char} {A : List Char} (B : List Char) (h : sep ∉ A) :
    pySplitOn1 sep (A ++ sep :: B) = [A, B] := by
  induction A with
  | nil => simp [pySplitOn1]
  | cons a A ih =>
    have ha : ¬ a = sep := fun e => h (e ▸ List.mem_cons_self a A)
    have h2 : sep ∉ A := fun m => h (List.mem_cons_of_mem a m)
    simp only [List.cons_append, pySplitOn1, ha, if_false, List.append_eq, ih h2]

theorem pySplitAll_single {sep : Char} {A : List Char} (h : sep ∉ A) :
    pySplitAll sep A = [A] := by
  induction A with
  | nil => simp [pySplitAll]
  | cons a A ih =>
    have ha : ¬ a = sep := fun e => h (e ▸ List.mem_cons_self a A)
    have h2 : sep ∉ A := fun m => h (List.mem_cons_of_mem a m)
    simp only [pySplitAll, ha, if_false, ih h2]

theorem pySplitAll_append {sep : Char} {A : List Char} (B : List Char) (h : sep ∉ A) :
    pySplitAll sep (A ++ sep :: B) = A :: pySplitAll sep B := by
  induction A with
  | nil => simp [pySplitAll]
  | cons a A ih =>
    have ha : ¬ a = sep := fun e => h (e ▸ List.mem_cons_self a A)
    have h2 : sep ∉ A := fun m => h (List.mem_cons_of_mem a m)
    simp only [List.cons_append, pySplitAll, ha, if_false, List.append_eq, ih h2]

theorem digitsVal_of {s : List Char} (h : IsDigits s) : digitsVal s = some (decVal s) := by
  unfold digitsVal
  rw [if_pos]
  exact ⟨h.1, List.all_eq_true.mpr (fun c m => h.2 c m)⟩

theorem pyInt_of_digits {s : List Char} (h : IsDigits s) :
    pyInt s = some ((decVal s : Nat) : Int) := by
  rcases s with _ | ⟨c, rest⟩
  · exact absurd rfl h.1
  · have hc : c.isDigit = true := h.2 c (List.mem_cons_self c rest)
    simp [pyInt, isDigit_ne_minus hc, isDigit_ne_plus hc, digitsVal_of h]

theorem pyInt_of_signed {s : List Char} (h : IsSignedInt s) : pyInt s = some (sVal s) := by
  rcases h with h | ⟨t, rfl, ht⟩
  · rcases s with _ | ⟨c, rest⟩
    · exact absurd rfl h.1
    · have hc : c.isDigit = true := h.2 c (List.mem_cons_self c rest)
      rw [pyInt_of_digits h]
      simp [sVal, isDigit_ne_minus hc]
  · simp [pyInt, sVal, digitsVal_of ht]

theorem pyIndex_first {α : Type} [DecidableEq α] {a : α} {l : List α} (h : a ∈ l) :
    l.get? (pyIndex a l) = some a ∧ ∀ j < pyIndex a l, l.get? j ≠ some a := by
  induction l with
  | nil => cases h
  | cons b t ih =>
    by_cases hb : b = a
    · subst hb
      refine ⟨by simp [pyIndex], ?_⟩
      intro j hj
      simp [pyIndex] at hj
    · have ht : a ∈ t := by
        rcases List.mem_cons.mp h with e | m
        · exact absurd e.symm hb
        · exact m
      obtain ⟨h1, h2⟩ := ih ht
      refine ⟨by simpa [pyIndex, hb] using h1, ?_⟩
      intro j hj
      cases j with
      | zero => simpa using fun e => hb e
      | succ k =>
        have hk : k < pyIndex a t := by
          simp only [pyIndex, hb, if_false] at hj
          omega
        simpa using h2 k hk

/-- Claim C1: for every platform-path outcome, enumerate_monitors
returns a non-empty list, and whenever the platform-specific path yields
zero displays the result is exactly one Monitor at origin (0, 0) named
Default whose width and height are the screen dimensions reported by the
root window. -/
theorem c1_nonempty_fallback (pm : List Monitor) (sw sh : Int) :
    enumerate_monitors pm sw sh ≠ []
    ∧ (pm = [] → enumerate_monitors pm sw sh
        = [mkMonitor sw sh 0 0 ("Default".toList)]) := by
  cases pm <;> simp [enumerate_monitors]

theorem c1_nonempty_fallback_witness :
    enumerate_monitors [] 1366 768 ≠ []
    ∧ enumerate_monitors [] 1366 768 = [mkMonitor 1366 768 0 0 ("Default".toList)] :=
  ⟨(c1_nonempty_fallback [] 1366 768).1, (c1_nonempty_fallback [] 1366 768).2 rfl⟩

/-- Claim C2: a tool-output line with at least four whitespace-separated
fields, whose second field begins with a plus sign and whose third field
is WIDTHxHEIGHT+X+Y with X and Y written as optionally minus-signed
decimal integers, parses to a Monitor whose width and height are the two
geometry integers, whose x and y are the signed integers after the plus
separators, and whose name is the final field; in particular the line
0: +*eDP-1 1920x1080+0+0 eDP-1 yields the monitor 1920 by 1080 at
(0, 0) named eDP-1. -/
theorem c2_geometry_parse :
    (∀ (f0 f1 ws hs xs ys r : List Char) (rs : List (List Char)),
      startsWithPlus f1 = true →
      IsDigits ws → IsDigits hs → IsSignedInt xs → IsSignedInt ys →
      parseFields (f0 :: f1 :: (ws ++ 'x' :: hs ++ '+' :: xs ++ '+' :: ys) :: r :: rs)
        = Except.ok (some (mkMonitor ((decVal ws : Nat) : Int) ((decVal hs : Nat) : Int)
            (sVal xs) (sVal ys) ((r :: rs).getLastD []))))
    ∧ parseMonitorLine ("0: +*eDP-1 1920x1080+0+0 eDP-1".toList)
        = Except.ok (some (mkMonitor 1920 1080 0 0 ("eDP-1".toList))) := by
  constructor
  · intro f0 f1 ws hs xs ys r rs hplus hws hhs hxs hys
    have hx1 : '+' ∉ ws ++ 'x' :: hs := by
      intro m
      rcases List.mem_append.mp m with m | m
      · exact digits_plus_not_mem hws m
      · rcases List.mem_cons.mp m with e | m
        · exact absurd e (by decide)
        · exact digits_plus_not_mem hhs m
    have hsplit1 : pySplitOn1 '+' (ws ++ 'x' :: hs ++ '+' :: xs ++ '+' :: ys)
        = [ws ++ 'x' :: hs, xs ++ '+' :: ys] := by
      have e : ws ++ 'x' :: hs ++ '+' :: xs ++ '+' :: ys
          = (ws ++ 'x' :: hs) ++ '+' :: (xs ++ '+' :: ys) := by simp
      rw [e, pySplitOn1_eq _ hx1]
    have hsplit2 : pySplitAll 'x' (ws ++ 'x' :: hs) = [ws, hs] := by
      rw [pySplitAll_append _ (digits_x_not_mem hws),
        pySplitAll_single (digits_x_not_mem hhs)]
    have hsplit3 : pySplitAll '+' (xs ++ '+' :: ys) = [xs, ys] := by
      rw [pySplitAll_append _ (signed_plus_not_mem hxs),
        pySplitAll_single (signed_plus_not_mem hys)]
    simp only [parseFields, hplus, if_true, hsplit1, hsplit2, hsplit3,
      pyInt_of_digits hws, pyInt_of_digits hhs, pyInt_of_signed hxs, pyInt_of_signed hys]
  · rfl

theorem c2_geometry_parse_witness :
    parseFields (("1:".toList) :: ("+HDMI-1".toList)
        :: ("1280".toList ++ 'x' :: "720".toList
            ++ '+' :: "-1920".toList ++ '+' :: "-5".toList)
        :: ("HDMI-1".toList) :: [])
      = Except.ok (some (mkMonitor 1280 720 (-1920) (-5) ("HDMI-1".toList))) := by
  have h := c2_geometry_parse.1 ("1:".toList) ("+HDMI-1".toList) ("1280".toList)
      ("720".toList) ("-1920".toList) ("-5".toList) ("HDMI-1".toList) [] rfl
      (by decide) (by decide)
      (Or.inr ⟨"1920".toList, rfl, by decide⟩) (Or.inr ⟨"5".toList, rfl, by decide⟩)
  exact h.trans (by rfl)

/-- Claim C3 counterexample: this tool output has a first monitor line
with four fields and the plus flag but a geometry token that cannot be
parsed; _monitors_linux raises ValueError there (only the tool
invocation is inside a try block), so the parse of the whole output
aborts and the well-formed second line, shown parseable on its own, is
never reached.  The claim instead says such a line is skipped and
subsequent lines still parsed. -/
theorem c3_counterexample :
    monitorsLinux ("0: +*eDP-1 garbage more\n1: +HDMI-1 1280x720+0+0 HDMI-1".toList)
      = Except.error ()
    ∧ parseMonitorLine ("1: +HDMI-1 1280x720+0+0 HDMI-1".toList)
      = Except.ok (some (mkMonitor 1280 720 0 0 ("HDMI-1".toList))) :=
  ⟨rfl, rfl⟩

/-- Claim C3 amended: a line with fewer than four whitespace-separated
fields, or whose second field does not begin with a plus sign, is
skipped individually and parsing of the remaining lines proceeds
unchanged; but a line passing that filter whose geometry token cannot be
parsed raises and aborts the parse of the whole output. -/
theorem c3_amended :
    (∀ parts : List (List Char), parts.length < 4 → parseFields parts = Except.ok none)
    ∧ (∀ (p0 p1 : List Char) (rest : List (List Char)), startsWithPlus p1 = false →
        parseFields (p0 :: p1 :: rest) = Except.ok none)
    ∧ (∀ (l : List Char) (ls : List (List Char)), parseMonitorLine l = Except.ok none →
        monitorsLinuxLines (l :: ls) = monitorsLinuxLines ls)
    ∧ (∀ (l : List Char) (ls : List (List Char)), parseMonitorLine l = Except.error () →
        monitorsLinuxLines (l :: ls) = Except.error ()) := by
  refine ⟨?_, ?_, ?_, ?_⟩
  · intro parts h
    rcases parts with _ | ⟨a, _ | ⟨b, _ | ⟨c, _ | ⟨d, t⟩⟩⟩⟩
    · rfl
    · rfl
    · rfl
    · rfl
    · simp at h
      omega
  · intro p0 p1 rest h
    rcases rest with _ | ⟨a, _ | ⟨b, t⟩⟩
    · rfl
    · rfl
    · simp [parseFields, h]
  · intro l ls h
    simp [monitorsLinuxLines, h]
  · intro l ls h
    simp [monitorsLinuxLines, h]

theorem c3_amended_witness :
    parseFields [] = Except.ok none
    ∧ parseFields (("0:".toList) :: ("eDP-1".toList) :: ("a".toList) :: ("b".toList) :: [])
        = Except.ok none
    ∧ monitorsLinuxLines (("Monitors: 2".toList) :: []) = monitorsLinuxLines []
    ∧ monitorsLinuxLines (("0: +*eDP-1 garbage more".toList) :: []) = Except.error () :=
  ⟨c3_amended.1 [] (by decide),
   c3_amended.2.1 _ _ _ rfl,
   c3_amended.2.2.1 _ [] rfl,
   c3_amended.2.2.2 _ [] rfl⟩

/-- The overlay state right after construction with the default command
line: font size 48, no selection, no gesture, text at canvas position
(100, 100).  The python attributes created only by the first gesture
(offsets and baselines) are modelled as fields holding zeros here. -/
def initState : ClockState :=
  { fontSize := 48, fontSizeVar := 48, fontFamily := "Helvetica".toList,
    dragging := false, scaling := false, selectionRect := none,
    scaleHandle := none, centerLineV := false, centerLineH := false,
    dragOffsetX := 0, dragOffsetY := 0, scaleStartY := 0,
    initialFontSize := 48, textPos := (100, 100) }

/-- A bounding box used as the canvas measurement in concrete runs. -/
def bb0 : Rect := { x1 := 80, y1 := 90, x2 := 120, y2 := 110 }

/-- A state in the middle of a drag gesture: the text was pressed at its
center (offsets zero), selection outline and handle present. -/
def dragState : ClockState :=
  { initState with
      dragging := true
      selectionRect := some bb0
      scaleHandle := some (handleRect bb0) }

/-- A state in the middle of a handle-resize gesture: baseline font size
48, baseline pointer y 100. -/
def resizeState : ClockState :=
  { initState with
      scaling := true
      scaleStartY := 100
      initialFontSize := 48
      selectionRect := some bb0
      scaleHandle := some (handleRect bb0) }

/-- Claim C4 counterexample: from the idle state (no selection, no
gesture) a press inside the text bounding box immediately sets the
dragging flag, so a drag gesture is in progress after that press alone,
where the claim says no drag or resize gesture is in progress. -/
theorem c4_counterexample :
    (on_text_press 100 100 (some bb0) initState).dragging = true := rfl

/-- Claim C4 amended: in the idle state a press inside the text bounding
box creates the selection outline at the box and the 8 by 8 resize
handle at its bottom-right corner, starts no resize gesture, but does
start a drag gesture: the dragging flag is set and the grab offset from
the box center is recorded. -/
theorem c4_amended (ex ey : Int) (b : Rect) (s : ClockState)
    (_hsel : s.selectionRect = none) (hhandle : s.scaleHandle = none)
    (_hdrag : s.dragging = false) (hscale : s.scaling = false)
    (hin : b.x1 ≤ ex ∧ ex ≤ b.x2 ∧ b.y1 ≤ ey ∧ ey ≤ b.y2) :
    (on_text_press ex ey (some b) s).selectionRect = some b
    ∧ (on_text_press ex ey (some b) s).scaleHandle
        = some { x1 := b.x2, y1 := b.y2, x2 := b.x2 + 8, y2 := b.y2 + 8 }
    ∧ (on_text_press ex ey (some b) s).scaling = false
    ∧ (on_text_press ex ey (some b) s).dragging = true
    ∧ (on_text_press ex ey (some b) s).dragOffsetX
        = (ex : ℚ) - ((b.x1 : ℚ) + (b.x2 : ℚ)) / 2
    ∧ (on_text_press ex ey (some b) s).dragOffsetY
        = (ey : ℚ) - ((b.y1 : ℚ) + (b.y2 : ℚ)) / 2 := by
  simp [on_text_press, hhandle, pressText, hin, handleRect, hscale]

theorem c4_amended_witness :
    (on_text_press 100 100 (some bb0) initState).selectionRect = some bb0
    ∧ (on_text_press 100 100 (some bb0) initState).scaleHandle
        = some { x1 := bb0.x2, y1 := bb0.y2, x2 := bb0.x2 + 8, y2 := bb0.y2 + 8 }
    ∧ (on_text_press 100 100 (some bb0) initState).scaling = false
    ∧ (on_text_press 100 100 (some bb0) initState).dragging = true
    ∧ (on_text_press 100 100 (some bb0) initState).dragOffsetX
        = (100 : ℚ) - (((80 : Int) : ℚ) + ((120 : Int) : ℚ)) / 2
    ∧ (on_text_press 100 100 (some bb0) initState).dragOffsetY
        = (100 : ℚ) - (((90 : Int) : ℚ) + ((110 : Int) : ℚ)) / 2 :=
  c4_amended 100 100 bb0 initState rfl rfl rfl rfl (by decide)

/-- Claim C5 counterexample: dragging to pointer (205, 50) on a 400 by
400 canvas with zero grab offset snaps only the x axis (the text lands
at (200, 50), y far from the midpoint 200), yet the horizontal guide
line is present afterwards: the source shows both guide lines whenever
either axis snaps, where the claim says the guide line of an unsnapped
axis is removed. -/
theorem c5_counterexample :
    (on_text_drag 205 50 400 400 bb0 dragState).textPos = ((200 : ℚ), (50 : ℚ))
    ∧ (on_text_drag 205 50 400 400 bb0 dragState).centerLineH = true := by
  constructor
  · simp only [on_text_drag, dragState, initState, bb0]
    norm_num [abs_le]
  · simp only [on_text_drag, dragState, initState, bb0]
    norm_num [abs_le]

/-- Claim C5 amended: during a drag-move step the two guide lines are
shown and removed together: after the step each of them exists exactly
when at least one axis snapped (its new coordinate within 10 units of
that axis midpoint); neither line is removed per-axis. -/
theorem c5_amended (ex ey w h : Int) (bb : Rect) (s : ClockState)
    (hd : s.dragging = true) (hs : s.scaling = false) :
    (on_text_drag ex ey w h bb s).centerLineV
      = (decide (|((ex : ℚ) - s.dragOffsetX) - (w : ℚ) / 2| ≤ 10)
         || decide (|((ey : ℚ) - s.dragOffsetY) - (h : ℚ) / 2| ≤ 10))
    ∧ (on_text_drag ex ey w h bb s).centerLineH
      = (decide (|((ex : ℚ) - s.dragOffsetX) - (w : ℚ) / 2| ≤ 10)
         || decide (|((ey : ℚ) - s.dragOffsetY) - (h : ℚ) / 2| ≤ 10)) := by
  simp [on_text_drag, hd, hs]

theorem c5_amended_witness :
    (on_text_drag 205 50 400 400 bb0 dragState).centerLineV = true
    ∧ (on_text_drag 205 50 400 400 bb0 dragState).centerLineH = true := by
  have h := c5_amended 205 50 400 400 bb0 dragState rfl rfl
  have hb : (decide (|(((205 : Int) : ℚ) - dragState.dragOffsetX) - ((400 : Int) : ℚ) / 2| ≤ 10)
      || decide (|(((50 : Int) : ℚ) - dragState.dragOffsetY) - ((400 : Int) : ℚ) / 2| ≤ 10)) = true := by
    simp only [dragState, initState, Bool.or_eq_true, decide_eq_true_eq]
    left
    norm_num [abs_le]
  exact ⟨h.1.trans hb, h.2.trans hb⟩

/-- In the scaling branch of on_text_drag the resulting font size is the
clamped formula value whether or not it differs from the current size:
when equal, the state is returned unchanged and already carries that
value. -/
theorem drag_scaling_fontSize (ex ey w h : Int) (bb : Rect) (s : ClockState)
    (hs : s.scaling = true) :
    (on_text_drag ex ey w h bb s).fontSize
      = max 1 (s.initialFontSize + (ey - s.scaleStartY)) := by
  simp only [on_text_drag, hs, if_true]
  split
  · rfl
  · next hne => exact (not_ne_iff.mp hne).symm

/-- A reachable state in which font_size is 48 but the spinbox variable
holds 0: typing 0 into the spinbox bypasses its 10 to 400 button range,
and --font-size 0 on the command line is accepted by argparse. -/
def zeroVarState : ClockState := { initState with fontSizeVar := 0 }

/-- Claim C6 counterexample: apply_settings copies the spinbox variable
into font_size with no clamping, so from a state satisfying the
invariant (font size 48, spinbox at 0) it produces font size 0,
violating font_size ≥ 1. -/
theorem c6_counterexample :
    zeroVarState.fontSize = 48
    ∧ ((apply_settings ("Helvetica".toList) ("Default".toList) [("Default".toList)] 0
        bb0 zeroVarState).1).fontSize = 0 :=
  ⟨rfl, rfl⟩

/-- Claim C6 amended: the gesture operations keep the invariant: every
resize-handle drag step and every scroll tick with a selection leaves
font_size ≥ 1; apply_settings instead sets font_size to the spinbox
variable with no clamping, so it preserves the invariant only when that
value is at least 1. -/
theorem c6_amended :
    (∀ (ex ey w h : Int) (bb : Rect) (s : ClockState), s.scaling = true →
        1 ≤ (on_text_drag ex ey w h bb s).fontSize)
    ∧ (∀ (delta : Int) (num : Option Int) (bb : Rect) (s : ClockState),
        s.selectionRect.isSome = true → 1 ≤ (on_mousewheel delta num bb s).fontSize)
    ∧ (∀ (fv mc : List Char) (names : List (List Char)) (idx : Nat) (bb : Rect)
        (s : ClockState),
        (apply_settings fv mc names idx bb s).1.fontSize = s.fontSizeVar) := by
  refine ⟨?_, ?_, ?_⟩
  · intro ex ey w h bb s hs
    rw [drag_scaling_fontSize ex ey w h bb s hs]
    exact le_max_left 1 _
  · intro delta num bb s hsel
    simp [on_mousewheel, hsel, le_max_left]
  · intro fv mc names idx bb s
    rfl

theorem c6_amended_witness :
    1 ≤ (on_text_drag 0 40 400 400 bb0 resizeState).fontSize
    ∧ 1 ≤ (on_mousewheel (-120) none bb0 dragState).fontSize
    ∧ (apply_settings ("Helvetica".toList) ("Default".toList) [("Default".toList)] 0
        bb0 zeroVarState).1.fontSize = zeroVarState.fontSizeVar :=
  ⟨c6_amended.1 0 40 400 400 bb0 resizeState rfl,
   c6_amended.2.1 (-120) none bb0 dragState rfl,
   c6_amended.2.2 ("Helvetica".toList) ("Default".toList) [("Default".toList)] 0
     bb0 zeroVarState⟩

/-- Claim C7: every resize-handle drag step yields font size
max 1 (baseline font size + (current pointer y - baseline pointer y)),
never zero or negative. -/
theorem c7_resize_formula (ex ey w h : Int) (bb : Rect) (s : ClockState)
    (hs : s.scaling = true) :
    (on_text_drag ex ey w h bb s).fontSize
      = max 1 (s.initialFontSize + (ey - s.scaleStartY)) :=
  drag_scaling_fontSize ex ey w h bb s hs

theorem c7_resize_formula_witness :
    (on_text_drag 0 110 400 400 bb0 resizeState).fontSize = 58
    ∧ (on_text_drag 0 40 400 400 bb0 resizeState).fontSize = 1 := by
  have h1 := c7_resize_formula 0 110 400 400 bb0 resizeState rfl
  have h2 := c7_resize_formula 0 40 400 400 bb0 resizeState rfl
  exact ⟨h1.trans (by decide), h2.trans (by decide)⟩

/-- Claim C8: during a drag-move step each axis of the new center is
clamped to the surface midpoint exactly when it is within 10 units of
it, and is left unchanged otherwise. -/
theorem c8_center_snap (ex ey w h : Int) (bb : Rect) (s : ClockState)
    (hd : s.dragging = true) (hs : s.scaling = false) :
    (on_text_drag ex ey w h bb s).textPos
      = (if |((ex : ℚ) - s.dragOffsetX) - (w : ℚ) / 2| ≤ 10 then (w : ℚ) / 2
         else (ex : ℚ) - s.dragOffsetX,
         if |((ey : ℚ) - s.dragOffsetY) - (h : ℚ) / 2| ≤ 10 then (h : ℚ) / 2
         else (ey : ℚ) - s.dragOffsetY) := by
  simp [on_text_drag, hd, hs]

theorem c8_center_snap_witness :
    (on_text_drag 205 300 400 600 bb0 dragState).textPos = ((200 : ℚ), (300 : ℚ))
    ∧ (on_text_drag 215 100 400 600 bb0 dragState).textPos = ((215 : ℚ), (100 : ℚ)) := by
  have h1 := c8_center_snap 205 300 400 600 bb0 dragState rfl rfl
  have h2 := c8_center_snap 215 100 400 600 bb0 dragState rfl rfl
  constructor
  · rw [h1]
    simp only [dragState, initState]
    norm_num [abs_le]
  · rw [h2]
    simp only [dragState, initState]
    norm_num [abs_le]

/-- Claim C9: a scroll event is a no-op while no selection is active
(the whole state is unchanged), and with a selection active each scroll
tick sets font size to max 1 (old + d) where d is exactly 1 or -1. -/
theorem c9_scroll_guard (delta : Int) (num : Option Int) (bb : Rect) (s : ClockState) :
    (s.selectionRect = none → on_mousewheel delta num bb s = s)
    ∧ (s.selectionRect.isSome = true →
        (on_mousewheel delta num bb s).fontSize
          = max 1 (s.fontSize + (if 0 < delta ∨ num = some 4 then 1 else -1))
        ∧ ((if 0 < delta ∨ num = some 4 then (1 : Int) else -1) = 1
           ∨ (if 0 < delta ∨ num = some 4 then (1 : Int) else -1) = -1)) := by
  constructor
  · intro h
    simp [on_mousewheel, h]
  · intro h
    refine ⟨by simp [on_mousewheel, h], ?_⟩
    split
    · exact Or.inl rfl
    · exact Or.inr rfl

theorem c9_scroll_guard_witness :
    on_mousewheel 120 none bb0 initState = initState
    ∧ (on_mousewheel 120 none bb0 dragState).fontSize = 49 := by
  refine ⟨(c9_scroll_guard 120 none bb0 initState).1 rfl, ?_⟩
  have h := ((c9_scroll_guard 120 none bb0 dragState).2 rfl).1
  exact h.trans (by decide)

/-- Claim C10: apply_settings resolves the monitor by name: a choice not
among the resolved names keeps the previous index, and a present choice
selects the first index bearing that name, so a later duplicate-named
monitor is never chosen. -/
theorem c10_monitor_index (fv mc : List Char) (names : List (List Char)) (idx : Nat)
    (bb : Rect) (s : ClockState) :
    (mc ∉ names → (apply_settings fv mc names idx bb s).2 = idx)
    ∧ (mc ∈ names →
        names.get? (apply_settings fv mc names idx bb s).2 = some mc
        ∧ ∀ j < (apply_settings fv mc names idx bb s).2, names.get? j ≠ some mc) := by
  constructor
  · intro h
    simp [apply_settings, h]
  · intro h
    have e : (apply_settings fv mc names idx bb s).2 = pyIndex mc names := by
      simp [apply_settings, h]
    rw [e]
    exact pyIndex_first h

theorem c10_monitor_index_witness :
    (apply_settings ("Helvetica".toList) ("DP-3".toList)
        [("eDP-1".toList), ("HDMI-1".toList)] 7 bb0 initState).2 = 7
    ∧ [("HDMI-1".toList), ("eDP-1".toList), ("HDMI-1".toList)].get?
        (apply_settings ("Helvetica".toList) ("HDMI-1".toList)
          [("HDMI-1".toList), ("eDP-1".toList), ("HDMI-1".toList)] 7 bb0 initState).2
      = some ("HDMI-1".toList) :=
  ⟨(c10_monitor_index ("Helvetica".toList) ("DP-3".toList)
      [("eDP-1".toList), ("HDMI-1".toList)] 7 bb0 initState).1 (by decide),
   ((c10_monitor_index ("Helvetica".toList) ("HDMI-1".toList)
      [("HDMI-1".toList), ("eDP-1".toList), ("HDMI-1".toList)] 7 bb0 initState).2
      (by decide)).1⟩

end WindowClock
